import Mathlib

/-!
Shallow embedding of the SPC analytics core of the pefc repository
(source file `src/pefc/qctools.py`): specification-limit normalization
(class `Spec`), the two control charts (`XmrChart` and `XBarRChart`),
the eight-rule engine (`spc_rules`), and `ProcessCapability`.

Modelling conventions:
* Real numbers are modelled as `ℚ`.  The source works with IEEE floats
  and uses the `math.nan` sentinel for "absent"; here an absent or
  non-finite value is modelled as `none : Option ℚ` (numpy reductions
  over empty arrays yield `nan` with a warning, they do not raise).
* Fallible constructors return `Except String _` when the source
  raises `ValueError` (`Spec.__init__`) and `Option _` when the source
  can raise `IndexError` (`XBarRChart.__init__`'s chart-constant
  table lookups).
* Observation-label arrays are modelled by lists parallel to the data
  list, as the source assumes.
-/

namespace Pefc

/-- Canonical spec-limit triple stored by `Spec.__init__`; `none` models
the `math.nan` "absent" sentinel of the source. -/
structure Spec where
  lsl : Option ℚ
  usl : Option ℚ
  nominal : Option ℚ
deriving DecidableEq

/-- Core of `Spec.__init__` (qctools.py lines 679-723), after the `lims`
pair has been unpacked into `lsl` and `usl`.  Mirrors the source branch
for branch: both limits present (order fixed, nominal defaulted to the
midpoint or checked only against the upper limit), a single limit with
or without a nominal (tie resolved by the strict comparisons of the
source), or no limits at all. -/
def Spec.initCore (lsl usl nominal : Option ℚ) : Except String Spec :=
  match lsl, usl with
  | some l, some u =>
      let lo := if l < u then l else u
      let hi := if u > l then u else l
      match nominal with
      | none => .ok ⟨some lo, some hi, some ((l + u) / 2)⟩
      | some nom =>
          if nom > hi then .error "nominal value not within LSL and USL"
          else .ok ⟨some lo, some hi, some nom⟩
  | some l, none =>
      match nominal with
      | none => .ok ⟨some l, none, none⟩
      | some nom =>
          if nom > l then .ok ⟨some l, none, some nom⟩
          else .ok ⟨none, some l, some nom⟩
  | none, some u =>
      match nominal with
      | none => .ok ⟨none, some u, none⟩
      | some nom =>
          if nom < u then .ok ⟨none, some u, some nom⟩
          else .ok ⟨some u, none, some nom⟩
  | none, none => .ok ⟨none, none, nominal⟩

/-- `Spec.__init__` (qctools.py lines 649-723).  `lims` is the optional
`(LSL, USL)` argument, a pair whose entries may individually be absent;
`nominal` is the optional target.  A `lims` of length other than two
raises `ValueError('invalid limits specifications')`. -/
def Spec.init (lims : Option (List (Option ℚ))) (nominal : Option ℚ) :
    Except String Spec :=
  match lims with
  | some [l, u] => Spec.initCore l u nominal
  | some _ => .error "invalid limits specifications"
  | none => Spec.initCore none none nominal

/-- Whenever `Spec.initCore` succeeds with both stored limits present,
they are correctly ordered. -/
lemma Spec.initCore_ordered (lsl usl nominal : Option ℚ) (s : Spec)
    (hok : Spec.initCore lsl usl nominal = .ok s)
    (a b : ℚ) (ha : s.lsl = some a) (hb : s.usl = some b) : a ≤ b := by
  rcases lsl with _ | l <;> rcases usl with _ | u <;>
    rcases nominal with _ | nom <;>
    simp only [Spec.initCore] at hok <;>
    (try split_ifs at hok) <;>
    (try injection hok with h) <;>
    (try subst h) <;>
    simp_all <;>
    linarith

/-- C3 (code bug): with bilateral limits `(5, 8)` the constructor accepts
a target of `1` lying below the lower limit — only `nominal > usl` is
checked by the source (qctools.py line 688) — while a target of `9` above
the upper limit is correctly rejected.  This contradicts the
constructor's own docstring, which promises a `ValueError` whenever the
nominal is outside the bilateral specifications. -/
theorem spec_target_below_lower_accepted :
    Spec.init (some [some 5, some 8]) (some 1) =
      .ok ⟨some 5, some 8, some 1⟩ ∧
    Spec.init (some [some 5, some 8]) (some 9) =
      .error "nominal value not within LSL and USL" := by
  constructor <;> rfl

/-- C8: swapped bilateral limits are auto-corrected — `lims = (l, u)`
with `u < l` normalizes to `lower = u`, `upper = l` with the target
defaulting to the midpoint; and whenever construction succeeds with both
stored limits present, `lower ≤ upper` holds. -/
theorem spec_swap_correction :
    (∀ l u : ℚ, u < l →
      Spec.init (some [some l, some u]) none =
        .ok ⟨some u, some l, some ((l + u) / 2)⟩) ∧
    (∀ lims nominal s, Spec.init lims nominal = .ok s →
      ∀ a b, s.lsl = some a → s.usl = some b → a ≤ b) := by
  constructor
  · intro l u h
    have h1 : ¬ l < u := not_lt.mpr h.le
    simp [Spec.init, Spec.initCore, h1]
  · intro lims nominal s hok a b ha hb
    match lims, hok with
    | some [l, u], hok => exact Spec.initCore_ordered l u nominal s hok a b ha hb
    | none, hok => exact Spec.initCore_ordered none none nominal s hok a b ha hb

/-- C8 witness: `normalize(8.0, 5.0)` with no target yields
`lower = 5.0`, `upper = 8.0` and target `6.5`. -/
theorem spec_swap_correction_witness :
    Spec.init (some [some 8, some 5]) none =
      .ok ⟨some 5, some 8, some (13 / 2)⟩ := by
  have h := spec_swap_correction.1 8 5 (by norm_num)
  norm_num at h
  exact h

/-- C10: with exactly one limit present and a target equal to that limit,
the two argument slots resolve the tie in opposite directions — a limit
in the lower (first) slot is stored as the upper limit, while a limit in
the upper (second) slot is stored as the lower limit. -/
theorem spec_single_limit_equal_target_tiebreak (v : ℚ) :
    Spec.init (some [some v, none]) (some v) = .ok ⟨none, some v, some v⟩ ∧
    Spec.init (some [none, some v]) (some v) = .ok ⟨some v, none, some v⟩ := by
  constructor <;> simp [Spec.init, Spec.initCore]

/-- NaN-propagating binary operation on the `Option ℚ` model of float
values: the result is present exactly when both operands are. -/
def omap2 (f : ℚ → ℚ → ℚ) : Option ℚ → Option ℚ → Option ℚ
  | some a, some b => some (f a b)
  | _, _ => none

/-- Mean of a numpy array: the mean of an empty array is `nan`
(a `RuntimeWarning`, not an exception), modelled as `none`. -/
def npMean : List ℚ → Option ℚ
  | [] => none
  | a :: l => some ((a :: l).sum / ((a :: l).length : ℚ))

/-- Moving ranges `abs(v - u) for u, v in zip(x, x[1:])`
(qctools.py line 324). -/
def movingRanges (x : List ℚ) : List ℚ :=
  (x.zip x.tail).map fun p => |p.2 - p.1|

/-- Chart constant `E2` for subgroup size 2, the only subgroup size
`XmrChart` supports (`e2_[subgroup-2]` at qctools.py lines 306-310). -/
def xmr_e2 : ℚ := 2.660

/-- Chart constant `D4` for subgroup size 2 (`d4_[subgroup-2]` at
qctools.py lines 308-311). -/
def xmr_d4 : ℚ := 3.268

/-- Chart constant `d2` for subgroup size 2 (`d2_[subgroup-2]` at
qctools.py lines 314-315). -/
def xmr_d2 : ℚ := 1.128

/-- Derived scalars stored by `XmrChart.__init__`.  `none` models a
`nan` field.  The raw data fields (`x`, `obs`, `n`) and
`total_std_dev` (an irrational square root) are not modelled; no claim
refers to them. -/
structure XmrChart where
  x_bar : Option ℚ
  mr_bar : Option ℚ
  x_ucl : Option ℚ
  x_ucl_c : Option ℚ
  x_ucl_b : Option ℚ
  x_lcl : Option ℚ
  x_lcl_c : Option ℚ
  x_lcl_b : Option ℚ
  mr_ucl : Option ℚ
  mr_ucl_c : Option ℚ
  mr_ucl_b : Option ℚ
  mr_lcl : Option ℚ
  mr_lcl_c : Option ℚ
  mr_lcl_b : Option ℚ
  proc_mean : Option ℚ
  proc_std_dev : Option ℚ
deriving DecidableEq

/-- `XmrChart.__init__` (qctools.py lines 293-349).  The constructor
raises nothing: short series merely propagate `nan` (here `none`)
through the moving-range mean into the limits. -/
def XmrChart.init (x : List ℚ) : XmrChart :=
  let x_bar := npMean x
  let mr_bar := npMean (movingRanges x)
  let x_ucl := omap2 (fun xb m => xb + xmr_e2 * m) x_bar mr_bar
  let x_ucl_c := omap2 (fun xb m => xb + xmr_e2 * m * (1 / 3)) x_bar mr_bar
  let x_ucl_b := omap2 (fun xb m => xb + xmr_e2 * m * (2 / 3)) x_bar mr_bar
  let x_lcl := omap2 (fun xb m => xb - xmr_e2 * m) x_bar mr_bar
  let x_lcl_c := omap2 (fun xb m => xb - xmr_e2 * m * (1 / 3)) x_bar mr_bar
  let x_lcl_b := omap2 (fun xb m => xb - xmr_e2 * m * (2 / 3)) x_bar mr_bar
  let mr_ucl := mr_bar.map fun m => xmr_d4 * m
  let mr_ucl_c := omap2 (fun m u => m + (u - m) * (1 / 3)) mr_bar mr_ucl
  let mr_ucl_b := omap2 (fun m u => m + (u - m) * (2 / 3)) mr_bar mr_ucl
  let mr_lcl_c := omap2 (fun m u => m - (u - m) * (1 / 3)) mr_bar mr_ucl
  let mr_lcl_b := omap2 (fun m u => m - (u - m) * (2 / 3)) mr_bar mr_ucl
  { x_bar := x_bar
    mr_bar := mr_bar
    x_ucl := x_ucl
    x_ucl_c := x_ucl_c
    x_ucl_b := x_ucl_b
    x_lcl := x_lcl
    x_lcl_c := x_lcl_c
    x_lcl_b := x_lcl_b
    mr_ucl := mr_ucl
    mr_ucl_c := mr_ucl_c
    mr_ucl_b := mr_ucl_b
    mr_lcl := some 0
    mr_lcl_c := mr_lcl_c.map fun q => if q < 0 then 0 else q
    mr_lcl_b := mr_lcl_b.map fun q => if q < 0 then 0 else q
    proc_mean := x_bar
    proc_std_dev := mr_bar.map fun m => m / xmr_d2 }

/-- C7 counterexample: constructing an `XmrChart` from the length-1
series `[5]` does not fail — the source raises no
`InsufficientDataError` (no such check exists); the center is defined
and the moving-range mean, hence every control limit, is `nan`. -/
theorem xmr_short_series_no_error :
    (XmrChart.init [5]).x_bar = some 5 ∧
    (XmrChart.init [5]).mr_bar = none ∧
    (XmrChart.init [5]).x_ucl = none ∧
    (XmrChart.init [5]).x_lcl = none := by
  refine ⟨?_, rfl, rfl, rfl⟩
  show npMean [5] = some 5
  norm_num [npMean]

/-- C7 as amended: `XmrChart` construction never raises.  For a
calibration series of fewer than 2 points the moving-range mean and all
control limits of the value chart are `nan` (`none`), while for series
of length at least 2 the center, moving-range mean, and both control
limits are defined. -/
theorem xmr_short_series_nan_amended (x : List ℚ) :
    (x.length < 2 →
      (XmrChart.init x).mr_bar = none ∧
      (XmrChart.init x).x_ucl = none ∧
      (XmrChart.init x).x_lcl = none) ∧
    (2 ≤ x.length →
      (XmrChart.init x).x_bar.isSome ∧
      (XmrChart.init x).mr_bar.isSome ∧
      (XmrChart.init x).x_ucl.isSome ∧
      (XmrChart.init x).x_lcl.isSome) := by
  constructor
  · intro h
    match x, h with
    | [], _ => exact ⟨rfl, rfl, rfl⟩
    | [a], _ => exact ⟨rfl, rfl, rfl⟩
  · intro h
    match x, h with
    | a :: b :: t, _ => exact ⟨rfl, rfl, rfl, rfl⟩

/-- C7 witness: the amended statement evaluated at the concrete series
`[5]` (too short: `nan` limits) and `[1, 3]` (long enough: all fields
defined). -/
theorem xmr_short_series_nan_amended_witness :
    ((XmrChart.init [5]).mr_bar = none ∧
      (XmrChart.init [5]).x_ucl = none ∧
      (XmrChart.init [5]).x_lcl = none) ∧
    ((XmrChart.init [1, 3]).x_bar.isSome ∧
      (XmrChart.init [1, 3]).mr_bar.isSome ∧
      (XmrChart.init [1, 3]).x_ucl.isSome ∧
      (XmrChart.init [1, 3]).x_lcl.isSome) :=
  ⟨(xmr_short_series_nan_amended [5]).1 (by norm_num),
   (xmr_short_series_nan_amended [1, 3]).2 (by norm_num)⟩

/-- C9: for every calibration series of length at least 2, the
`XmrChart` limits satisfy `lcl ≤ center ≤ ucl` and the zone boundaries
are ordered outward from the center:
`lcl ≤ lcl_b ≤ lcl_c ≤ center ≤ ucl_c ≤ ucl_b ≤ ucl`
(inputs are `ℚ`, hence finite). -/
theorem xmr_limits_ordered (x : List ℚ) (h : 2 ≤ x.length) :
    ∃ c m, (XmrChart.init x).x_bar = some c ∧
      (XmrChart.init x).mr_bar = some m ∧
      (XmrChart.init x).x_lcl = some (c - xmr_e2 * m) ∧
      (XmrChart.init x).x_lcl_b = some (c - xmr_e2 * m * (2 / 3)) ∧
      (XmrChart.init x).x_lcl_c = some (c - xmr_e2 * m * (1 / 3)) ∧
      (XmrChart.init x).x_ucl_c = some (c + xmr_e2 * m * (1 / 3)) ∧
      (XmrChart.init x).x_ucl_b = some (c + xmr_e2 * m * (2 / 3)) ∧
      (XmrChart.init x).x_ucl = some (c + xmr_e2 * m) ∧
      c - xmr_e2 * m ≤ c - xmr_e2 * m * (2 / 3) ∧
      c - xmr_e2 * m * (2 / 3) ≤ c - xmr_e2 * m * (1 / 3) ∧
      c - xmr_e2 * m * (1 / 3) ≤ c ∧
      c ≤ c + xmr_e2 * m * (1 / 3) ∧
      c + xmr_e2 * m * (1 / 3) ≤ c + xmr_e2 * m * (2 / 3) ∧
      c + xmr_e2 * m * (2 / 3) ≤ c + xmr_e2 * m := by
  match x, h with
  | a :: b :: t, _ =>
    have hm : 0 ≤ (movingRanges (a :: b :: t)).sum /
        ((movingRanges (a :: b :: t)).length : ℚ) := by
      apply div_nonneg
      · apply List.sum_nonneg
        intro y hy
        simp only [movingRanges, List.mem_map] at hy
        obtain ⟨p, _, rfl⟩ := hy
        exact abs_nonneg _
      · exact_mod_cast Nat.zero_le _
    refine ⟨(a :: b :: t).sum / ((a :: b :: t).length : ℚ),
        (movingRanges (a :: b :: t)).sum /
          ((movingRanges (a :: b :: t)).length : ℚ),
        rfl, rfl, rfl, rfl, rfl, rfl, rfl, rfl, ?_, ?_, ?_, ?_, ?_, ?_⟩
    all_goals
      have he2 : 0 ≤ xmr_e2 * ((movingRanges (a :: b :: t)).sum /
          ((movingRanges (a :: b :: t)).length : ℚ)) :=
        mul_nonneg (by norm_num [xmr_e2]) hm
      linarith

/-- C9 witness: the ordering theorem applied to the concrete
calibration series `[1, 3]`. -/
theorem xmr_limits_ordered_witness :
    ∃ c m, (XmrChart.init [1, 3]).x_bar = some c ∧
      (XmrChart.init [1, 3]).mr_bar = some m ∧
      (XmrChart.init [1, 3]).x_lcl = some (c - xmr_e2 * m) ∧
      (XmrChart.init [1, 3]).x_lcl_b = some (c - xmr_e2 * m * (2 / 3)) ∧
      (XmrChart.init [1, 3]).x_lcl_c = some (c - xmr_e2 * m * (1 / 3)) ∧
      (XmrChart.init [1, 3]).x_ucl_c = some (c + xmr_e2 * m * (1 / 3)) ∧
      (XmrChart.init [1, 3]).x_ucl_b = some (c + xmr_e2 * m * (2 / 3)) ∧
      (XmrChart.init [1, 3]).x_ucl = some (c + xmr_e2 * m) ∧
      c - xmr_e2 * m ≤ c - xmr_e2 * m * (2 / 3) ∧
      c - xmr_e2 * m * (2 / 3) ≤ c - xmr_e2 * m * (1 / 3) ∧
      c - xmr_e2 * m * (1 / 3) ≤ c ∧
      c ≤ c + xmr_e2 * m * (1 / 3) ∧
      c + xmr_e2 * m * (1 / 3) ≤ c + xmr_e2 * m * (2 / 3) ∧
      c + xmr_e2 * m * (2 / 3) ≤ c + xmr_e2 * m :=
  xmr_limits_ordered [1, 3] (by norm_num)

/-- Python list indexing semantics: non-negative indices in range,
negative indices wrapping from the end (`l[-1]` is the last element),
everything else an `IndexError` (`none`). -/
def pyGet (l : List ℚ) (i : ℤ) : Option ℚ :=
  if 0 ≤ i then l.get? i.toNat
  else if 0 ≤ i + l.length then l.get? (i + l.length).toNat
  else none

/-- `d4_` table of `XBarRChart.__init__` (qctools.py lines 537-539),
indexed by `n - 2` for subgroup sizes 2 through 25. -/
def d4Table : List ℚ :=
  [3.267, 2.574, 2.282, 2.114, 2.004, 1.924, 1.864, 1.816,
   1.777, 1.744, 1.717, 1.693, 1.672, 1.653, 1.637, 1.622,
   1.608, 1.597, 1.585, 1.575, 1.566, 1.557, 1.548, 1.541]

/-- `d3_` table of `XBarRChart.__init__` (qctools.py lines 541-543). -/
def d3Table : List ℚ :=
  [0.0, 0.0, 0.0, 0.0, 0.0, 0.076, 0.136, 0.184,
   0.223, 0.256, 0.283, 0.307, 0.328, 0.347, 0.363, 0.378,
   0.391, 0.403, 0.415, 0.425, 0.434, 0.443, 0.451, 0.459]

/-- `a2_` table of `XBarRChart.__init__` (qctools.py lines 545-547). -/
def a2Table : List ℚ :=
  [1.880, 1.023, 0.729, 0.577, 0.483, 0.419, 0.373, 0.337,
   0.308, 0.285, 0.266, 0.249, 0.235, 0.223, 0.212, 0.203,
   0.194, 0.187, 0.180, 0.173, 0.167, 0.162, 0.157, 0.153]

/-- `d2_` table of `XBarRChart.__init__` (qctools.py lines 575-577). -/
def d2Table : List ℚ :=
  [1.128, 1.693, 2.059, 2.326, 2.534, 2.704, 2.847, 2.970,
   3.078, 3.173, 3.258, 3.336, 3.407, 3.472, 3.532, 3.588,
   3.640, 3.689, 3.735, 3.778, 3.819, 3.858, 3.895, 3.931]

/-- The chart-constants lookup performed by `XBarRChart.__init__`
(qctools.py lines 549-551 and 578): `(D4, D3, A2, d2)` at Python index
`n - 2`, with Python's negative-index wrap-around; `none` models the
`IndexError` raised past the end of the tables. -/
def xbarConstants (n : ℤ) : Option (ℚ × ℚ × ℚ × ℚ) :=
  match pyGet d4Table (n - 2), pyGet d3Table (n - 2),
      pyGet a2Table (n - 2), pyGet d2Table (n - 2) with
  | some d4, some d3, some a2, some d2 => some (d4, d3, a2, d2)
  | _, _, _, _ => none

/-- Sequencing of numpy `nan` propagation: an aggregate over per-row
results is `nan` as soon as one row's result is. -/
def seqO : List (Option ℚ) → Option (List ℚ)
  | [] => some []
  | none :: _ => none
  | some a :: l => (seqO l).map fun r => a :: r

/-- Range `max - min` of one subgroup row (qctools.py line 533);
`none` for an empty row. -/
def rowRange (row : List ℚ) : Option ℚ :=
  match row.max?, row.min? with
  | some hi, some lo => some (hi - lo)
  | _, _ => none

/-- Derived scalars stored by `XBarRChart.__init__`.  `total_std_dev`
(an irrational square root) and the raw data fields are not modelled;
no claim refers to them. -/
structure XBarRChart where
  x_bar_bar : Option ℚ
  r_bar : Option ℚ
  x_bar_ucl : Option ℚ
  x_bar_ucl_b : Option ℚ
  x_bar_ucl_c : Option ℚ
  x_bar_lcl : Option ℚ
  x_bar_lcl_b : Option ℚ
  x_bar_lcl_c : Option ℚ
  r_ucl : Option ℚ
  r_ucl_b : Option ℚ
  r_ucl_c : Option ℚ
  r_lcl : Option ℚ
  r_lcl_b : Option ℚ
  r_lcl_c : Option ℚ
  proc_std_dev : Option ℚ
deriving DecidableEq

/-- `XBarRChart.__init__` (qctools.py lines 511-582) on a rectangular
subgroup matrix (`data.shape[1]` is the length of the first row).  The
overall `Option` models the `IndexError` from the constants lookup when
the subgroup size is out of table range; `none` fields model `nan`. -/
def XBarRChart.init (data : List (List ℚ)) : Option XBarRChart :=
  let n : ℕ := match data with | [] => 0 | r :: _ => r.length
  match xbarConstants (n : ℤ) with
  | none => none
  | some (d4, d3, a2, d2) =>
    let x_bar_bar := (seqO (data.map npMean)).bind npMean
    let r_bar := (seqO (data.map rowRange)).bind npMean
    let x_bar_ucl := omap2 (fun xb rb => xb + a2 * rb) x_bar_bar r_bar
    let x_bar_lcl := omap2 (fun xb rb => xb - a2 * rb) x_bar_bar r_bar
    let r_ucl := r_bar.map fun rb => d4 * rb
    let r_lcl := r_bar.map fun rb => d3 * rb
    let r_ucl_b := omap2 (fun rb ru => rb + (ru - rb) * (2 / 3)) r_bar r_ucl
    let r_ucl_c := omap2 (fun rb ru => rb + (ru - rb) * (1 / 3)) r_bar r_ucl
    let r_lcl_b := omap2 (fun rb ru => rb - (ru - rb) * (2 / 3)) r_bar r_ucl
    let r_lcl_c := omap2 (fun rb ru => rb - (ru - rb) * (1 / 3)) r_bar r_ucl
    some
      { x_bar_bar := x_bar_bar
        r_bar := r_bar
        x_bar_ucl := x_bar_ucl
        x_bar_ucl_b := x_bar_ucl.map fun q => q * (2 / 3)
        x_bar_ucl_c := x_bar_ucl.map fun q => q * (1 / 3)
        x_bar_lcl := x_bar_lcl
        x_bar_lcl_b := x_bar_lcl.map fun q => q * (2 / 3)
        x_bar_lcl_c := x_bar_lcl.map fun q => q * (1 / 3)
        r_ucl := r_ucl
        r_ucl_b := r_ucl_b
        r_ucl_c := r_ucl_c
        r_lcl := r_lcl
        r_lcl_b := r_lcl_b.map fun q => if q < 0 then 0 else q
        r_lcl_c := r_lcl_c.map fun q => if q < 0 then 0 else q
        proc_std_dev := r_bar.map fun rb => rb / d2 }

/-- C1 (code bug): on the subgroup matrix `[[10,12],[14,16]]` the mean
chart has center `13` and upper limit `16.76 = 419/25`, but the stored
upper zone boundaries are `ucl*(2/3) = 838/75 ≈ 11.17` and
`ucl*(1/3) = 419/75`, not the thirds partition
`center + (2/3)*(ucl - center) = 1163/75 ≈ 15.51`; the "upper" B
boundary even lies below the center line.  This contradicts the module's
own convention, used two lines below for the R chart and in `XmrChart`,
that zone boundaries split the distance from center to limit into
thirds. -/
theorem xbar_zone_boundaries_not_thirds :
    (XBarRChart.init [[10, 12], [14, 16]]).bind XBarRChart.x_bar_bar =
      some 13 ∧
    (XBarRChart.init [[10, 12], [14, 16]]).bind XBarRChart.x_bar_ucl =
      some (419 / 25) ∧
    (XBarRChart.init [[10, 12], [14, 16]]).bind XBarRChart.x_bar_ucl_b =
      some (838 / 75) ∧
    (XBarRChart.init [[10, 12], [14, 16]]).bind XBarRChart.x_bar_ucl_c =
      some (419 / 75) ∧
    (838 / 75 : ℚ) ≠ 13 + (419 / 25 - 13) * (2 / 3) ∧
    (838 / 75 : ℚ) < 13 := by
  norm_num [XBarRChart.init, xbarConstants, pyGet, d4Table, d3Table,
    a2Table, d2Table, npMean, rowRange, seqO, omap2, List.max?, List.min?]

/-- C6 counterexample: the constants lookup for subgroup size `n = 1`
does not fail — Python's negative indexing wraps `n - 2 = -1` to the
last table row, silently returning the constants for `n = 25`. -/
theorem xbar_constants_n1_wraps :
    xbarConstants 1 = some (1.541, 0.459, 0.153, 3.931) ∧
    xbarConstants 1 = xbarConstants 25 := by
  constructor <;> rfl

/-- C6 as amended: for every subgroup size `2 ≤ n ≤ 25` the lookup
succeeds with finite constants (`D4 > 0`, `D3 ≥ 0`, `A2 > 0`,
`d2 > 0`); for `n = 26` (and anything further past the table) it fails
with an `IndexError`; but for `n = 1` it does not fail — negative-index
wrap-around silently returns the row for `n = 25`. -/
theorem xbar_constants_range :
    (∀ n : ℤ, 2 ≤ n → n ≤ 25 →
      ∃ c, xbarConstants n = some c ∧
        0 < c.1 ∧ 0 ≤ c.2.1 ∧ 0 < c.2.2.1 ∧ 0 < c.2.2.2) ∧
    xbarConstants 26 = none ∧
    xbarConstants 1 = xbarConstants 25 := by
  refine ⟨?_, rfl, rfl⟩
  intro n h1 h2
  interval_cases n <;>
    exact ⟨_, rfl, by norm_num, by norm_num, by norm_num, by norm_num⟩

/-- C6 witness: the amended lookup property evaluated at subgroup
size 2. -/
theorem xbar_constants_range_witness :
    ∃ c, xbarConstants 2 = some c ∧
      0 < c.1 ∧ 0 ≤ c.2.1 ∧ 0 < c.2.2.1 ∧ 0 < c.2.2.2 :=
  xbar_constants_range.1 2 (by norm_num) (by norm_num)

/-- The duck-typed chart interface consumed by `ProcessCapability`:
`proc_mean`, `within_std_dev` (an alias of `proc_std_dev` in both chart
classes) and `overall_std_dev`.  Fields are `Option ℚ` because a chart
calibrated from degenerate data carries `nan` statistics. -/
structure ChartStats where
  proc_mean : Option ℚ
  within_std_dev : Option ℚ
  overall_std_dev : Option ℚ

/-- NaN-propagating division of the float model: `none` when either
operand is absent or the result is non-finite (zero divisor). -/
def odiv : Option ℚ → Option ℚ → Option ℚ
  | some a, some b => if b = 0 then none else some (a / b)
  | _, _ => none

/-- Python's `min((a, b))` on possibly-`nan` floats: it starts from `a`
and replaces it only when `b < a`, so a `nan` first component is
returned as-is, while a `nan` second component loses the comparison and
`a` is returned. -/
def pymin : Option ℚ → Option ℚ → Option ℚ
  | none, _ => none
  | some a, none => some a
  | some a, some b => some (if b < a then b else a)

/-- The eight capability ratios stored by `ProcessCapability.__init__`. -/
structure ProcessCapability where
  pp : Option ℚ
  ppu : Option ℚ
  ppl : Option ℚ
  ppk : Option ℚ
  cp : Option ℚ
  cpu : Option ℚ
  cpl : Option ℚ
  cpk : Option ℚ
deriving DecidableEq

/-- `ProcessCapability.__init__` (qctools.py lines 1325-1350).  The
source performs no validation whatsoever: each ratio is computed
directly from the spec limits and chart statistics, `nan` operands
propagating into the results. -/
def ProcessCapability.init (chart : ChartStats) (spec : Spec) :
    ProcessCapability :=
  let pp := odiv (omap2 (fun u l => u - l) spec.usl spec.lsl)
    (chart.overall_std_dev.map fun s => 6 * s)
  let ppu := odiv (omap2 (fun u m => u - m) spec.usl chart.proc_mean)
    (chart.overall_std_dev.map fun s => 3 * s)
  let ppl := odiv (omap2 (fun m l => m - l) chart.proc_mean spec.lsl)
    (chart.overall_std_dev.map fun s => 3 * s)
  let cp := odiv (omap2 (fun u l => u - l) spec.usl spec.lsl)
    (chart.within_std_dev.map fun s => 6 * s)
  let cpu := odiv (omap2 (fun u m => u - m) spec.usl chart.proc_mean)
    (chart.within_std_dev.map fun s => 3 * s)
  let cpl := odiv (omap2 (fun m l => m - l) chart.proc_mean spec.lsl)
    (chart.within_std_dev.map fun s => 3 * s)
  { pp := pp
    ppu := ppu
    ppl := ppl
    ppk := pymin ppu ppl
    cp := cp
    cpu := cpu
    cpl := cpl
    cpk := pymin cpu cpl }

/-- C2 counterexample: a `ProcessCapability` built from a chart with
mean 10 and unit deviations and a spec whose upper limit is absent does
not fail with any `MissingLimitError` — construction succeeds and
silently returns `nan` for `Pp`, `Ppu`, `Ppk`, `Cp`, `Cpu`, `Cpk`
(while `Ppl = Cpl = 2/3` are still computed). -/
theorem process_capability_missing_limit_silent_nan :
    ProcessCapability.init ⟨some 10, some 1, some 1⟩ ⟨some 8, none, none⟩ =
      ⟨none, none, some (2 / 3), none, none, none, some (2 / 3), none⟩ := by
  norm_num [ProcessCapability.init, odiv, omap2, pymin]

/-- C2 as amended: constructing a `ProcessCapability` from a spec with
an absent limit never fails; it silently produces `nan` capability
ratios — with the upper limit absent, `Pp`, `Ppu`, `Ppk`, `Cp`, `Cpu`
and `Cpk` are all `nan`; with the lower limit absent, `Pp`, `Ppl`,
`Cp` and `Cpl` are `nan`. -/
theorem process_capability_absent_limit_nan (chart : ChartStats)
    (spec : Spec) :
    (spec.usl = none →
      (ProcessCapability.init chart spec).pp = none ∧
      (ProcessCapability.init chart spec).ppu = none ∧
      (ProcessCapability.init chart spec).ppk = none ∧
      (ProcessCapability.init chart spec).cp = none ∧
      (ProcessCapability.init chart spec).cpu = none ∧
      (ProcessCapability.init chart spec).cpk = none) ∧
    (spec.lsl = none →
      (ProcessCapability.init chart spec).pp = none ∧
      (ProcessCapability.init chart spec).ppl = none ∧
      (ProcessCapability.init chart spec).cp = none ∧
      (ProcessCapability.init chart spec).cpl = none) := by
  constructor
  · intro h
    simp [ProcessCapability.init, h, omap2, odiv, pymin]
  · intro h
    rcases spec with ⟨l, u, nom⟩
    cases h
    rcases u with _ | u <;> rcases chart with ⟨pm, ws, os⟩ <;>
      rcases pm with _ | pm <;> rcases ws with _ | ws <;>
      rcases os with _ | os <;>
      simp [ProcessCapability.init, omap2, odiv, pymin]

/-- C2 witness: the amended no-failure behaviour evaluated with a
concrete chart (mean 10, unit deviations) against a spec missing its
upper limit and one missing its lower limit. -/
theorem process_capability_absent_limit_nan_witness :
    ((ProcessCapability.init ⟨some 10, some 1, some 1⟩
        ⟨some 8, none, none⟩).pp = none ∧
      (ProcessCapability.init ⟨some 10, some 1, some 1⟩
        ⟨some 8, none, none⟩).ppu = none ∧
      (ProcessCapability.init ⟨some 10, some 1, some 1⟩
        ⟨some 8, none, none⟩).ppk = none ∧
      (ProcessCapability.init ⟨some 10, some 1, some 1⟩
        ⟨some 8, none, none⟩).cp = none ∧
      (ProcessCapability.init ⟨some 10, some 1, some 1⟩
        ⟨some 8, none, none⟩).cpu = none ∧
      (ProcessCapability.init ⟨some 10, some 1, some 1⟩
        ⟨some 8, none, none⟩).cpk = none) ∧
    ((ProcessCapability.init ⟨some 10, some 1, some 1⟩
        ⟨none, some 12, none⟩).pp = none ∧
      (ProcessCapability.init ⟨some 10, some 1, some 1⟩
        ⟨none, some 12, none⟩).ppl = none ∧
      (ProcessCapability.init ⟨some 10, some 1, some 1⟩
        ⟨none, some 12, none⟩).cp = none ∧
      (ProcessCapability.init ⟨some 10, some 1, some 1⟩
        ⟨none, some 12, none⟩).cpl = none) :=
  ⟨(process_capability_absent_limit_nan ⟨some 10, some 1, some 1⟩
      ⟨some 8, none, none⟩).1 rfl,
   (process_capability_absent_limit_nan ⟨some 10, some 1, some 1⟩
      ⟨none, some 12, none⟩).2 rfl⟩

/-- Python's `sorted(set(ind))` used for the per-rule de-duplication of
flagged indices (qctools.py lines 208, 219, 230, 242, 253, 264, 276). -/
def sortDedup (l : List ℕ) : List ℕ := List.insertionSort (· ≤ ·) l.dedup

lemma sortDedup_sorted (l : List ℕ) : (sortDedup l).Sorted (· ≤ ·) :=
  List.sorted_insertionSort _ _

lemma sortDedup_nodup (l : List ℕ) : (sortDedup l).Nodup :=
  (List.perm_insertionSort _ _).nodup_iff.mpr (List.nodup_dedup l)

lemma mem_sortDedup {a : ℕ} {l : List ℕ} : a ∈ sortDedup l ↔ a ∈ l :=
  (List.perm_insertionSort _ _).mem_iff.trans List.mem_dedup

/-- Rule 2 of `spc_rules` (qctools.py lines 202-210): for each window
`data[i:i+3]`, if the count of points strictly above `ucl_b` is exactly
2, or the count strictly below `lcl_b` is exactly 2, collect the window
indices whose point is beyond either boundary; de-duplicate and sort. -/
def rule2Idx (data : List ℚ) (ucl_b lcl_b : ℚ) : List ℕ :=
  sortDedup <| (List.range (data.length - 2)).flatMap fun i =>
    let d := (data.drop i).take 3
    if d.countP (fun v => decide (ucl_b < v)) = 2 ∨
        d.countP (fun v => decide (v < lcl_b)) = 2 then
      (((List.range' i 3).zip d).filter fun p =>
        decide (ucl_b < p.2) || decide (p.2 < lcl_b)).map Prod.fst
    else []

/-- Rule 3 of `spc_rules` (qctools.py lines 213-221): 4 of 5
consecutive points beyond the 1/3-zone boundary, same side. -/
def rule3Idx (data : List ℚ) (ucl_c lcl_c : ℚ) : List ℕ :=
  sortDedup <| (List.range (data.length - 4)).flatMap fun i =>
    let d := (data.drop i).take 5
    if d.countP (fun v => decide (ucl_c < v)) = 4 ∨
        d.countP (fun v => decide (v < lcl_c)) = 4 then
      (((List.range' i 5).zip d).filter fun p =>
        decide (ucl_c < p.2) || decide (p.2 < lcl_c)).map Prod.fst
    else []

/-- Rule 4 of `spc_rules` (qctools.py lines 224-232): 9 consecutive
points on the same side of the center line; the whole window is
collected. -/
def rule4Idx (data : List ℚ) (cl : ℚ) : List ℕ :=
  sortDedup <| (List.range (data.length - 8)).flatMap fun i =>
    let d := (data.drop i).take 9
    if d.countP (fun v => decide (cl < v)) = 9 ∨
        d.countP (fun v => decide (v < cl)) = 9 then
      List.range' i 9
    else []

/-- Rule 5 of `spc_rules` (qctools.py lines 235-244): 7 consecutive
points monotonically non-decreasing or non-increasing. -/
def rule5Idx (data : List ℚ) : List ℕ :=
  sortDedup <| (List.range (data.length - 6)).flatMap fun i =>
    let d := (data.drop i).take 7
    if (d.zip d.tail).all (fun p => decide (p.1 ≤ p.2)) ||
        (d.zip d.tail).all (fun p => decide (p.1 ≥ p.2)) then
      List.range' i 7
    else []

/-- Rule 6 of `spc_rules` (qctools.py lines 247-255): 8 consecutive
points all beyond the 1/3-zone boundary, either side. -/
def rule6Idx (data : List ℚ) (ucl_c lcl_c : ℚ) : List ℕ :=
  sortDedup <| (List.range (data.length - 7)).flatMap fun i =>
    let d := (data.drop i).take 8
    if d.all (fun v => decide (ucl_c < v)) ||
        d.all (fun v => decide (v < lcl_c)) then
      List.range' i 8
    else []

/-- Rule 7 of `spc_rules` (qctools.py lines 258-266): 15 consecutive
points all strictly within the 1/3-zone band around the center. -/
def rule7Idx (data : List ℚ) (ucl_c lcl_c : ℚ) : List ℕ :=
  sortDedup <| (List.range (data.length - 14)).flatMap fun i =>
    let d := (data.drop i).take 15
    if d.all (fun v => decide (lcl_c < v)) &&
        d.all (fun v => decide (v < ucl_c)) then
      List.range' i 15
    else []

/-- Rule 8 of `spc_rules` (qctools.py lines 269-278): 14 consecutive
points alternating direction (consecutive first differences of strictly
opposite sign). -/
def rule8Idx (data : List ℚ) : List ℕ :=
  sortDedup <| (List.range (data.length - 13)).flatMap fun i =>
    let d := (data.drop i).take 14
    let diff := (d.zip d.tail).map fun p => p.2 - p.1
    if (diff.zip diff.tail).all (fun p => decide (p.1 * p.2 < 0)) then
      List.range' i 14
    else []

/-- Fancy indexing `data[ind]` of the flagged values. -/
def idxVals (data : List ℚ) (idxs : List ℕ) : List ℚ :=
  idxs.filterMap fun j => data.get? j

/-- Fancy indexing `obs[ind]` of the flagged labels. -/
def idxObs {α : Type} (obs : List α) (idxs : List ℕ) : List α :=
  idxs.filterMap fun j => obs.get? j

/-- The 16-component result of `spc_rules`: per rule, the parallel
lists of offending values and observation labels. -/
structure SpcRules (α : Type) where
  ofc1 : List ℚ
  ofc1_obs : List α
  ofc2 : List ℚ
  ofc2_obs : List α
  ofc3 : List ℚ
  ofc3_obs : List α
  ofc4 : List ℚ
  ofc4_obs : List α
  ofc5 : List ℚ
  ofc5_obs : List α
  ofc6 : List ℚ
  ofc6_obs : List α
  ofc7 : List ℚ
  ofc7_obs : List α
  ofc8 : List ℚ
  ofc8_obs : List α

/-- `spc_rules` (qctools.py lines 193-281).  `data` and `obs` are the
parallel value/label arrays; the remaining arguments are the chart's
center, control limits and zone boundaries.  Rule 1 is the boolean mask
`(data > ucl) | (data < lcl)` applied to both arrays; rules 2-8 are
sliding-window index collections. -/
def spc_rules {α : Type} (data : List ℚ) (obs : List α)
    (cl ucl ucl_b ucl_c lcl lcl_b lcl_c : ℚ) : SpcRules α :=
  let mask1 := (data.zip obs).filter fun p =>
    decide (ucl < p.1) || decide (p.1 < lcl)
  { ofc1 := mask1.map Prod.fst
    ofc1_obs := mask1.map Prod.snd
    ofc2 := idxVals data (rule2Idx data ucl_b lcl_b)
    ofc2_obs := idxObs obs (rule2Idx data ucl_b lcl_b)
    ofc3 := idxVals data (rule3Idx data ucl_c lcl_c)
    ofc3_obs := idxObs obs (rule3Idx data ucl_c lcl_c)
    ofc4 := idxVals data (rule4Idx data cl)
    ofc4_obs := idxObs obs (rule4Idx data cl)
    ofc5 := idxVals data (rule5Idx data)
    ofc5_obs := idxObs obs (rule5Idx data)
    ofc6 := idxVals data (rule6Idx data ucl_c lcl_c)
    ofc6_obs := idxObs obs (rule6Idx data ucl_c lcl_c)
    ofc7 := idxVals data (rule7Idx data ucl_c lcl_c)
    ofc7_obs := idxObs obs (rule7Idx data ucl_c lcl_c)
    ofc8 := idxVals data (rule8Idx data)
    ofc8_obs := idxObs obs (rule8Idx data) }

/-- C5: a series shorter than a rule's window width (1, 3, 5, 9, 7, 8,
15, 14 for rules 1 through 8) yields empty value and label lists for
that rule; evaluation is total, so no error can be raised. -/
theorem spc_rules_short_series {α : Type} (data : List ℚ) (obs : List α)
    (cl ucl ucl_b ucl_c lcl lcl_b lcl_c : ℚ) :
    (data.length < 1 →
      (spc_rules data obs cl ucl ucl_b ucl_c lcl lcl_b lcl_c).ofc1 = [] ∧
      (spc_rules data obs cl ucl ucl_b ucl_c lcl lcl_b lcl_c).ofc1_obs = []) ∧
    (data.length < 3 →
      (spc_rules data obs cl ucl ucl_b ucl_c lcl lcl_b lcl_c).ofc2 = [] ∧
      (spc_rules data obs cl ucl ucl_b ucl_c lcl lcl_b lcl_c).ofc2_obs = []) ∧
    (data.length < 5 →
      (spc_rules data obs cl ucl ucl_b ucl_c lcl lcl_b lcl_c).ofc3 = [] ∧
      (spc_rules data obs cl ucl ucl_b ucl_c lcl lcl_b lcl_c).ofc3_obs = []) ∧
    (data.length < 9 →
      (spc_rules data obs cl ucl ucl_b ucl_c lcl lcl_b lcl_c).ofc4 = [] ∧
      (spc_rules data obs cl ucl ucl_b ucl_c lcl lcl_b lcl_c).ofc4_obs = []) ∧
    (data.length < 7 →
      (spc_rules data obs cl ucl ucl_b ucl_c lcl lcl_b lcl_c).ofc5 = [] ∧
      (spc_rules data obs cl ucl ucl_b ucl_c lcl lcl_b lcl_c).ofc5_obs = []) ∧
    (data.length < 8 →
      (spc_rules data obs cl ucl ucl_b ucl_c lcl lcl_b lcl_c).ofc6 = [] ∧
      (spc_rules data obs cl ucl ucl_b ucl_c lcl lcl_b lcl_c).ofc6_obs = []) ∧
    (data.length < 15 →
      (spc_rules data obs cl ucl ucl_b ucl_c lcl lcl_b lcl_c).ofc7 = [] ∧
      (spc_rules data obs cl ucl ucl_b ucl_c lcl lcl_b lcl_c).ofc7_obs = []) ∧
    (data.length < 14 →
      (spc_rules data obs cl ucl ucl_b ucl_c lcl lcl_b lcl_c).ofc8 = [] ∧
      (spc_rules data obs cl ucl ucl_b ucl_c lcl lcl_b lcl_c).ofc8_obs = []) := by
  refine ⟨?_, ?_, ?_, ?_, ?_, ?_, ?_, ?_⟩ <;> intro h
  · match data, h with
    | [], _ => exact ⟨rfl, rfl⟩
  · have h0 : rule2Idx data ucl_b lcl_b = [] := by
      unfold rule2Idx; rw [show data.length - 2 = 0 from by omega]; rfl
    exact ⟨by simp [spc_rules, h0, idxVals], by simp [spc_rules, h0, idxObs]⟩
  · have h0 : rule3Idx data ucl_c lcl_c = [] := by
      unfold rule3Idx; rw [show data.length - 4 = 0 from by omega]; rfl
    exact ⟨by simp [spc_rules, h0, idxVals], by simp [spc_rules, h0, idxObs]⟩
  · have h0 : rule4Idx data cl = [] := by
      unfold rule4Idx; rw [show data.length - 8 = 0 from by omega]; rfl
    exact ⟨by simp [spc_rules, h0, idxVals], by simp [spc_rules, h0, idxObs]⟩
  · have h0 : rule5Idx data = [] := by
      unfold rule5Idx; rw [show data.length - 6 = 0 from by omega]; rfl
    exact ⟨by simp [spc_rules, h0, idxVals], by simp [spc_rules, h0, idxObs]⟩
  · have h0 : rule6Idx data ucl_c lcl_c = [] := by
      unfold rule6Idx; rw [show data.length - 7 = 0 from by omega]; rfl
    exact ⟨by simp [spc_rules, h0, idxVals], by simp [spc_rules, h0, idxObs]⟩
  · have h0 : rule7Idx data ucl_c lcl_c = [] := by
      unfold rule7Idx; rw [show data.length - 14 = 0 from by omega]; rfl
    exact ⟨by simp [spc_rules, h0, idxVals], by simp [spc_rules, h0, idxObs]⟩
  · have h0 : rule8Idx data = [] := by
      unfold rule8Idx; rw [show data.length - 13 = 0 from by omega]; rfl
    exact ⟨by simp [spc_rules, h0, idxVals], by simp [spc_rules, h0, idxObs]⟩

/-- C5 witness: the short-series property evaluated on the empty series
(shorter than every rule's window), with all eight emptiness facts drawn
from the theorem. -/
theorem spc_rules_short_series_witness :
    ((spc_rules ([] : List ℚ) ([] : List ℕ) 0 0 0 0 0 0 0).ofc1 = [] ∧
      (spc_rules ([] : List ℚ) ([] : List ℕ) 0 0 0 0 0 0 0).ofc1_obs = []) ∧
    ((spc_rules ([] : List ℚ) ([] : List ℕ) 0 0 0 0 0 0 0).ofc2 = [] ∧
      (spc_rules ([] : List ℚ) ([] : List ℕ) 0 0 0 0 0 0 0).ofc2_obs = []) ∧
    ((spc_rules ([] : List ℚ) ([] : List ℕ) 0 0 0 0 0 0 0).ofc3 = [] ∧
      (spc_rules ([] : List ℚ) ([] : List ℕ) 0 0 0 0 0 0 0).ofc3_obs = []) ∧
    ((spc_rules ([] : List ℚ) ([] : List ℕ) 0 0 0 0 0 0 0).ofc4 = [] ∧
      (spc_rules ([] : List ℚ) ([] : List ℕ) 0 0 0 0 0 0 0).ofc4_obs = []) ∧
    ((spc_rules ([] : List ℚ) ([] : List ℕ) 0 0 0 0 0 0 0).ofc5 = [] ∧
      (spc_rules ([] : List ℚ) ([] : List ℕ) 0 0 0 0 0 0 0).ofc5_obs = []) ∧
    ((spc_rules ([] : List ℚ) ([] : List ℕ) 0 0 0 0 0 0 0).ofc6 = [] ∧
      (spc_rules ([] : List ℚ) ([] : List ℕ) 0 0 0 0 0 0 0).ofc6_obs = []) ∧
    ((spc_rules ([] : List ℚ) ([] : List ℕ) 0 0 0 0 0 0 0).ofc7 = [] ∧
      (spc_rules ([] : List ℚ) ([] : List ℕ) 0 0 0 0 0 0 0).ofc7_obs = []) ∧
    ((spc_rules ([] : List ℚ) ([] : List ℕ) 0 0 0 0 0 0 0).ofc8 = [] ∧
      (spc_rules ([] : List ℚ) ([] : List ℕ) 0 0 0 0 0 0 0).ofc8_obs = []) := by
  have h := spc_rules_short_series ([] : List ℚ) ([] : List ℕ) 0 0 0 0 0 0 0
  exact ⟨h.1 (by norm_num), h.2.1 (by norm_num), h.2.2.1 (by norm_num),
    h.2.2.2.1 (by norm_num), h.2.2.2.2.1 (by norm_num),
    h.2.2.2.2.2.1 (by norm_num), h.2.2.2.2.2.2.1 (by norm_num),
    h.2.2.2.2.2.2.2 (by norm_num)⟩

lemma get?_of_drop_eq_cons {α : Type} {l : List α} {i : ℕ} {a : α}
    {t : List α} (h : l.drop i = a :: t) : l.get? i = some a := by
  induction l generalizing i with
  | nil => simp at h
  | cons b l ih =>
    cases i with
    | zero => rw [List.drop_zero] at h; cases h; rfl
    | succ i => rw [List.drop_succ_cons] at h; exact ih h

/-- Membership in the zip of an index window `range' i k` with the
slice `l[i:i+k]` is exactly indexed membership in `l` within the
window. -/
lemma mem_zip_range'_slice {α : Type} {l : List α} {k : ℕ} :
    ∀ {i j : ℕ} {v : α},
      (j, v) ∈ (List.range' i k).zip ((l.drop i).take k) ↔
        i ≤ j ∧ j < i + k ∧ l.get? j = some v := by
  induction k with
  | zero => intro i j v; simp; omega
  | succ k ih =>
    intro i j v
    rw [List.range'_succ]
    cases hd : l.drop i with
    | nil =>
      simp only [List.take_nil, List.zip_nil_right, List.not_mem_nil,
        false_iff]
      rintro ⟨h1, _, h3⟩
      have hlen : l.length ≤ i := by
        have hl := congrArg List.length hd
        rw [List.length_drop] at hl
        simp only [List.length_nil] at hl
        omega
      rw [List.get?_eq_none.mpr (le_trans hlen h1)] at h3
      exact Option.noConfusion h3
    | cons a t =>
      have ht : l.drop (i + 1) = t := by
        rw [← List.tail_drop, hd]; rfl
      rw [List.take_succ_cons, List.zip_cons_cons, List.mem_cons]
      constructor
      · rintro (h | h)
        · rw [Prod.mk.injEq] at h
          obtain ⟨rfl, rfl⟩ := h
          exact ⟨le_refl _, by omega, get?_of_drop_eq_cons hd⟩
        · rw [← ht] at h
          have hz := ih.mp h
          exact ⟨by omega, by omega, hz.2.2⟩
      · rintro ⟨h1, h2, h3⟩
        rcases Nat.eq_or_lt_of_le h1 with rfl | hlt
        · left
          have ha := get?_of_drop_eq_cons hd
          injection h3.symm.trans ha with hv
          rw [hv]
        · right
          rw [← ht]
          exact ih.mpr ⟨hlt, by omega, h3⟩

/-- C4 as amended: Rule 2 flags a window of 3 consecutive points
whenever **exactly** 2 of the 3 points lie beyond the 2/3-zone boundary
on the same side (a window whose 3 points all lie beyond one boundary
does not qualify), and the reported indices are exactly those points in
some qualifying window lying beyond either boundary, each reported once
(no duplicates), in increasing index order. -/
theorem rule2_flags_exactly_two_of_three (data : List ℚ)
    (ucl_b lcl_b : ℚ) :
    (rule2Idx data ucl_b lcl_b).Sorted (· ≤ ·) ∧
    (rule2Idx data ucl_b lcl_b).Nodup ∧
    ∀ j, j ∈ rule2Idx data ucl_b lcl_b ↔
      ∃ i, i + 3 ≤ data.length ∧
        (((data.drop i).take 3).countP (fun v => decide (ucl_b < v)) = 2 ∨
          ((data.drop i).take 3).countP (fun v => decide (v < lcl_b)) = 2) ∧
        i ≤ j ∧ j < i + 3 ∧
        ∃ v, data.get? j = some v ∧ (ucl_b < v ∨ v < lcl_b) := by
  refine ⟨sortDedup_sorted _, sortDedup_nodup _, fun j => ?_⟩
  rw [rule2Idx, mem_sortDedup, List.mem_flatMap]
  constructor
  · rintro ⟨i, hi, hmem⟩
    rw [List.mem_range] at hi
    dsimp only at hmem
    split at hmem
    case isTrue hcond =>
      rw [List.mem_map] at hmem
      obtain ⟨⟨j', v⟩, hp, hpj⟩ := hmem
      rw [List.mem_filter] at hp
      obtain ⟨hz, hB⟩ := hp
      cases hpj
      have hzz := mem_zip_range'_slice.mp hz
      refine ⟨i, by omega, hcond, hzz.1, hzz.2.1, v, hzz.2.2, ?_⟩
      simpa using hB
    case isFalse => simp at hmem
  · rintro ⟨i, hlen, hcond, hij, hjk, v, hget, hbey⟩
    refine ⟨i, List.mem_range.mpr (by omega), ?_⟩
    dsimp only
    rw [if_pos hcond, List.mem_map]
    refine ⟨(j, v), ?_, rfl⟩
    rw [List.mem_filter]
    exact ⟨mem_zip_range'_slice.mpr ⟨hij, hjk, hget⟩, by simpa using hbey⟩

/-- C4 counterexample: a 3-point series lying entirely beyond the upper
2/3-zone boundary (`11 > 10` at every index, boundaries
`ucl_b = 10`, `lcl_b = 0`) is **not** flagged by Rule 2, because the
source tests for a count of exactly 2, and here the count is 3. -/
theorem rule2_all_beyond_window_not_flagged :
    rule2Idx [11, 11, 11] 10 0 = [] ∧ (10 : ℚ) < 11 :=
  ⟨rfl, by norm_num⟩

end Pefc
